import Mathlib

set_option maxRecDepth 4096

/-!
Shallow embedding of the grok-4-chat repository.

The client (`src/App.vue`, `src/components/ChatMessage.vue`) is modelled as a
state machine over `AppState`; the forwarding server (`server.ts`) as a pure
handler parameterised by the upstream endpoint.  Machine integers do not occur;
timestamps are the millisecond values of JavaScript `Date`s, modelled as `Nat`.
-/

/-! ### Generic list/string helpers used by several embeddings -/

/-- Earliest occurrence of `pat` in `l`: returns the part before the match and
the part after it.  `none` when `pat` does not occur. -/
def splitFirst (pat : List Char) : List Char → Option (List Char × List Char)
  | [] => if pat = [] then some ([], []) else none
  | c :: cs =>
    if pat.isPrefixOf (c :: cs) then some ([], (c :: cs).drop pat.length)
    else
      match splitFirst pat cs with
      | some (pre, post) => some (c :: pre, post)
      | none => none

/-- Substring test on character lists. -/
def containsSub (pat l : List Char) : Bool := (splitFirst pat l).isSome

/-- Substring test on strings. -/
def containsStr (pat s : String) : Bool := containsSub pat.data s.data

/-- Do the patterns occur in `l` in the given order (disjointly)? -/
def occursInOrder : List (List Char) → List Char → Bool
  | [], _ => true
  | p :: ps, l =>
    match splitFirst p l with
    | some (_, rest) => occursInOrder ps rest
    | none => false

/-- JavaScript `String.prototype.trim` on a character list: strip leading and
trailing whitespace. -/
def trimChars (l : List Char) : List Char :=
  ((l.dropWhile Char.isWhitespace).reverse.dropWhile Char.isWhitespace).reverse

/-- JavaScript `String.prototype.trim` on strings. -/
def trimStr (s : String) : String := String.mk (trimChars s.data)

/-! ### Data model (the `Message` interface of `src/App.vue`) -/

/-- Message role, from the `Message` interface in `src/App.vue`. -/
inductive Role
  | user
  | assistant
deriving DecidableEq

/-- One conversation turn, from the `Message` interface in `src/App.vue`:
`id : string`, `role`, `content : string`, `timestamp : Date` (modelled as the
millisecond clock value). -/
structure Message where
  id : String
  role : Role
  content : String
  timestamp : Nat
deriving DecidableEq

/-- The string a role serialises to in request payloads and CSS classes. -/
def roleString : Role → String
  | .user => "user"
  | .assistant => "assistant"

/-- Reactive state of `App.vue`: `messages`, `currentMessage`, `isLoading`,
plus the two storage-backed refs `apiKey` (`useStorage "grok-api-key" ""`) and
`useProxy` (`useStorage "grok-use-proxy" false`).  Writes to the latter two go
through to local storage; `messages` is a plain `ref` with no storage backing. -/
structure AppState where
  messages : List Message
  currentMessage : String
  isLoading : Bool
  apiKey : String
  useProxy : Bool
deriving DecidableEq

/-- `hasApiKey` computed of `App.vue`: `apiKey.value.trim() !== ""`. -/
def hasApiKey (s : AppState) : Bool := trimStr s.apiKey != ""

/-- `canSend` computed of `App.vue`:
`currentMessage.value.trim() !== "" && !isLoading.value && hasApiKey.value`. -/
def canSend (s : AppState) : Bool :=
  (trimStr s.currentMessage != "") && (!s.isLoading) && hasApiKey s

/-- The hard-coded system prompt sent with every request in `sendMessage`. -/
def systemPromptText : String :=
  "You are Grok, a helpful and witty AI assistant. Be conversational, helpful, and occasionally humorous."

/-- One `{role, content}` entry of the outbound `messages` array. -/
structure OutboundEntry where
  role : String
  content : String
deriving DecidableEq

/-- The outbound message list built in `sendMessage`: the system entry followed
by `messages.value.map((msg) => ({role: msg.role, content: msg.content}))`. -/
def outboundMessages (msgs : List Message) : List OutboundEntry :=
  { role := "system", content := systemPromptText } ::
    msgs.map (fun m => { role := roleString m.role, content := m.content })

/-- The dispatched network request: either the proxy path (credential in the
body, POSTed to `/api/chat`) or the direct path (credential as a bearer header,
fixed model `grok-4`, `stream: false`, `temperature: 0.7` — the temperature is
recorded in tenths to stay within the integers). -/
inductive Request
  | proxy (apiKey : String) (messages : List OutboundEntry)
  | direct (authorization : String) (messages : List OutboundEntry)
      (model : String) (stream : Bool) (temperatureTenths : Nat)
deriving DecidableEq

/-- The `messages` array carried by either kind of request. -/
def payloadMessages : Request → List OutboundEntry
  | .proxy _ msgs => msgs
  | .direct _ msgs _ _ _ => msgs

/-- Request construction in `sendMessage`, selected by `useProxy.value`. -/
def buildRequest (s : AppState) (msgs : List Message) : Request :=
  if s.useProxy then .proxy s.apiKey (outboundMessages msgs)
  else .direct ("Bearer " ++ s.apiKey) (outboundMessages msgs) "grok-4" false 7

/-- The synchronous prefix of `sendMessage` in `App.vue`: the `canSend` guard,
the optimistic push of the user turn (`id = Date.now().toString()`, trimmed
draft, current time), the clearing of the draft, the setting of the in-flight
flag, and the request that is dispatched.  Returns the new state and the
dispatched request (`none` when the guard declined). -/
def sendStart (now : Nat) (s : AppState) : AppState × Option Request :=
  if canSend s then
    let userMessage : Message :=
      { id := toString now, role := .user, content := trimStr s.currentMessage, timestamp := now }
    let msgs := s.messages ++ [userMessage]
    ({ s with messages := msgs, currentMessage := "", isLoading := true },
      some (buildRequest s msgs))
  else (s, none)

/-- Result of `JSON.parse` on a non-success response body in `sendMessage`:
either the parse succeeded (an object whose `error` and `details` fields may
each be absent), or it threw and `errorData = { error: errorText }`. -/
inductive ErrBody
  | parsed (error : Option String) (details : Option String)
  | unparsed (raw : String)
deriving DecidableEq

/-- Outcome of the awaited `fetch` in `sendMessage`: a success body
(`data.choices[0].message.content`), a non-success HTTP status with its body,
or a rejection (network failure) carrying the `Error` message. -/
inductive FetchOutcome
  | success (content : String)
  | httpError (status : Nat) (statusText : String) (body : ErrBody)
  | networkError (message : String)
deriving DecidableEq

/-- JavaScript `a || b` on an optional string: `none` and `""` are falsy. -/
def jsOr (o : Option String) (dflt : String) : String :=
  match o with
  | some s => if s = "" then dflt else s
  | none => dflt

/-- The detail picked in `sendMessage`:
`errorData.error || errorData.details || "Unknown error"`. -/
def errDetail : ErrBody → String
  | .parsed e d => jsOr e (jsOr d "Unknown error")
  | .unparsed raw => jsOr (some raw) "Unknown error"

/-- The proxy hint appended to error turns when the direct path was used. -/
def corsHint : String :=
  "\n\n💡 Try enabling proxy mode in settings if you\x27re experiencing CORS issues."

/-- Message of the `Error` thrown on a non-success HTTP status:
`API Error: ${status} ${statusText} - ${error || details || "Unknown error"}`. -/
def errorContent (status : Nat) (statusText : String) (b : ErrBody) : String :=
  "API Error: " ++ toString status ++ " " ++ statusText ++ " - " ++ errDetail b

/-- The single assistant turn appended when the dispatched send completes:
the parsed reply on success, otherwise the catch block's
`Sorry, I encountered an error: ...` turn (with the proxy hint iff the direct
path was used).  Its id is `(Date.now() + 1).toString()`. -/
def completionMessage (now : Nat) (o : FetchOutcome) (useProxy : Bool) : Message :=
  match o with
  | .success content =>
    { id := toString (now + 1), role := .assistant, content := content, timestamp := now }
  | .httpError st stx b =>
    { id := toString (now + 1)
      role := .assistant
      content := "Sorry, I encountered an error: " ++ errorContent st stx b ++
        (if useProxy then "" else corsHint)
      timestamp := now }
  | .networkError msg =>
    { id := toString (now + 1)
      role := .assistant
      content := "Sorry, I encountered an error: " ++ msg ++
        (if useProxy then "" else corsHint)
      timestamp := now }

/-- The completion suffix of `sendMessage`: exactly one assistant turn is
pushed (success or failure) and the `finally` block clears `isLoading`. -/
def sendComplete (now : Nat) (o : FetchOutcome) (s : AppState) : AppState :=
  { s with
    messages := s.messages ++ [completionMessage now o s.useProxy]
    isLoading := false }

/-- `clearChat` in `App.vue`: `messages.value = []`. -/
def clearChat (s : AppState) : AppState := { s with messages := [] }

/-- State on a fresh load: `messages` starts as the empty ref, the draft empty,
nothing in flight; `apiKey` and `useProxy` are rehydrated from local storage. -/
def initState (apiKey : String) (useProxy : Bool) : AppState :=
  { messages := []
    currentMessage := ""
    isLoading := false
    apiKey := apiKey
    useProxy := useProxy }

/-- Restarting the app: only the storage-backed refs (`grok-api-key`,
`grok-use-proxy`) survive; everything else re-initialises. -/
def restart (s : AppState) : AppState := initState s.apiKey s.useProxy

/-- User-interface events driving the state machine: editing the draft,
pressing send (with the clock value `Date.now()` observed), the completion
callback of an outstanding request (with its clock value and fetch outcome),
and the clear button. -/
inductive Event
  | setDraft (text : String)
  | send (now : Nat)
  | complete (now : Nat) (outcome : FetchOutcome)
  | clear

/-- One event step.  A completion callback exists only while a request is
outstanding, i.e. while `isLoading` is set; a `complete` event in any other
state corresponds to no callback and leaves the state unchanged. -/
def step (s : AppState) (e : Event) : AppState :=
  match e with
  | .setDraft t => { s with currentMessage := t }
  | .send now => (sendStart now s).1
  | .complete now o => if s.isLoading then sendComplete now o s else s
  | .clear => clearChat s

/-- Running a trace of events from a state. -/
def run (s : AppState) (tr : List Event) : AppState := tr.foldl step s

/-- The clock values observed by the time-bearing events of a trace, in order. -/
def timesOf : List Event → List Nat
  | [] => []
  | .send t :: es => t :: timesOf es
  | .complete t _ :: es => t :: timesOf es
  | .setDraft _ :: es => timesOf es
  | .clear :: es => timesOf es

/-! ### The forwarding server (`server.ts`, `POST /api/chat`) -/

/-- JSON body of a `POST /api/chat` request as destructured by the handler:
`const { messages, apiKey, ...options } = req.body`.  The `apiKey` field may be
absent; `options` holds the remaining fields of the body object (so it never
contains a `messages` or `apiKey` key, and its keys are distinct, this being an
object) with each value carried as its serialised JSON text. -/
structure ChatRequestBody where
  messages : List OutboundEntry
  apiKey : Option String
  options : List (String × String)
deriving DecidableEq

/-- The request the forwarder issues to the remote completion endpoint.  The
body `{messages, model: "grok-4", stream: false, temperature: 0.7, ...options}`
spreads the passthrough options last, so an option keyed `model`, `stream` or
`temperature` overrides the fixed value; the fields below are the effective
values after that merge (`stream`/`temperature` as their JSON texts), and
`extraOptions` the remaining passthrough entries. -/
structure UpstreamRequest where
  authorization : String
  messages : List OutboundEntry
  model : String
  stream : String
  temperature : String
  extraOptions : List (String × String)
deriving DecidableEq

/-- The upstream endpoint's reply as observed by the handler: `ok`, `status`,
`statusText`, the raw body text (`response.text()`, read on the failure path),
and the outcome of `response.json()` on that same body — the parsed value
(carried as its serialised form) or the message of the `SyntaxError` the parse
threw. -/
structure UpstreamResponse where
  ok : Bool
  status : Nat
  statusText : String
  body : String
  json : Except String String

/-- Body of the forwarder's own reply: the upstream JSON body relayed verbatim
(`res.json(data)`), or an `{error, details?}` object. -/
inductive RespBody
  | upstream (raw : String)
  | errorObj (error : String) (details : Option String)
deriving DecidableEq

/-- HTTP reply of the forwarder: status code and body. -/
structure ServerResponse where
  status : Nat
  body : RespBody
deriving DecidableEq

/-- The `POST /api/chat` handler of `server.ts`.  `upstream` is the remote
completion endpoint: `Except.error` models a rejected `fetch` (caught by the
handler's `try/catch`, which replies 500).  The second component records the
upstream request that was issued, `none` when none was.  A missing or empty
`apiKey` is falsy and is refused with 400 before any upstream call.  On an ok
upstream response the handler runs `await response.json()`, which throws on a
non-JSON body and lands in the same catch (500 `{error, details}`); only a
successfully parsed body is relayed (`res.json(data)`, status 200). -/
def handleChat (upstream : UpstreamRequest → Except String UpstreamResponse)
    (b : ChatRequestBody) : ServerResponse × Option UpstreamRequest :=
  match b.apiKey with
  | none => ({ status := 400, body := .errorObj "API key is required" none }, none)
  | some k =>
    if k = "" then ({ status := 400, body := .errorObj "API key is required" none }, none)
    else
      let req : UpstreamRequest :=
        { authorization := "Bearer " ++ k
          messages := b.messages
          model := (b.options.lookup "model").getD "grok-4"
          stream := (b.options.lookup "stream").getD "false"
          temperature := (b.options.lookup "temperature").getD "0.7"
          extraOptions := b.options.filter
            (fun p => p.1 != "model" && p.1 != "stream" && p.1 != "temperature") }
      match upstream req with
      | .error e =>
        ({ status := 500, body := .errorObj "Internal server error" (some e) }, some req)
      | .ok r =>
        if r.ok then
          match r.json with
          | .ok data => ({ status := 200, body := .upstream data }, some req)
          | .error e =>
            ({ status := 500, body := .errorObj "Internal server error" (some e) }, some req)
        else
          ({ status := r.status
             body := .errorObj ("xAI API Error: " ++ toString r.status ++ " " ++ r.statusText)
               (some r.body) }, some req)

/-! ### The content renderer (`formattedContent` in `src/components/ChatMessage.vue`)

Each regex replacement pass of the computed property is embedded as a scanner
over the character list.  Scanners that may consume several characters per step
take a fuel argument; every wrapper supplies `length + 1` fuel, which bounds the
number of steps since each step consumes at least one input character. -/

/-- The backquote character (code point 96). -/
def backquoteChar : Char := Char.ofNat 96

/-- Word characters, the `\w` class of the code-fence regex. -/
def isWordChar (c : Char) : Bool := c.isAlphanum || c = '_'

/-- Global replacement of a fixed non-empty pattern, left to right, continuing
after each replacement (the semantics of `String.replace` with a literal
global regex). -/
def replaceSub (pat repl : List Char) : Nat → List Char → List Char
  | 0, l => l
  | _ + 1, [] => []
  | fuel + 1, c :: cs =>
    if pat.isPrefixOf (c :: cs) then repl ++ replaceSub pat repl fuel ((c :: cs).drop pat.length)
    else c :: replaceSub pat repl fuel cs

/-- Fuel-saturated wrapper for `replaceSub`. -/
def replaceSubP (pat repl l : List Char) : List Char := replaceSub pat repl (l.length + 1) l

/-- Step 1 of `formattedContent`: the three sequential global replacements
escaping `&`, then `<`, then `>`. -/
def escapeHtml (l : List Char) : List Char :=
  replaceSubP ">".data "&gt;".data
    (replaceSubP "<".data "&lt;".data
      (replaceSubP "&".data "&amp;".data l))

/-- Match of the fenced-code regex at the current position: three backquotes,
a greedy optional run of word characters that must be followed by a newline,
then the lazily-matched body up to the first newline-plus-three-backquotes.
Returns the language tag, the body, and the remainder after the match. -/
def tryCodeBlock (l : List Char) : Option (List Char × List Char × List Char) :=
  if ([backquoteChar, backquoteChar, backquoteChar]).isPrefixOf l then
    let l1 := l.drop 3
    let lang := l1.takeWhile isWordChar
    let l2 := l1.drop lang.length
    match l2 with
    | c :: rest =>
      if c = '\n' then
        match splitFirst ('\n' :: [backquoteChar, backquoteChar, backquoteChar]) rest with
        | some (body, after) => some (lang, body, after)
        | none => none
      else none
    | [] => none
  else none

/-- Replacement text of the fenced-code pass; the label falls back to `code`
when no language tag was given, and the body is trimmed. -/
def codeBlockRepl (lang body : List Char) : List Char :=
  "<div class=\"code-block\"><div class=\"code-header\">".data ++
    (if lang = [] then "code".data else lang) ++
    "</div><pre><code>".data ++ trimChars body ++ "</code></pre></div>".data

/-- Step 2 of `formattedContent`: the fenced-code-block pass. -/
def codeBlocksAux : Nat → List Char → List Char
  | 0, l => l
  | _ + 1, [] => []
  | fuel + 1, c :: cs =>
    match tryCodeBlock (c :: cs) with
    | some (lang, body, after) => codeBlockRepl lang body ++ codeBlocksAux fuel after
    | none => c :: codeBlocksAux fuel cs

/-- Step 3 of `formattedContent`: the inline-code pass — a backquote, one or
more non-backquote characters, a closing backquote. -/
def inlineCodeAux : Nat → List Char → List Char
  | 0, l => l
  | _ + 1, [] => []
  | fuel + 1, c :: cs =>
    if c = backquoteChar then
      match splitFirst [backquoteChar] cs with
      | some (body, rest) =>
        if body = [] then c :: inlineCodeAux fuel cs
        else
          "<code class=\"inline-code\">".data ++ body ++ "</code>".data ++
            inlineCodeAux fuel rest
      | none => c :: inlineCodeAux fuel cs
    else c :: inlineCodeAux fuel cs

/-- Split on newline characters (the lines seen by an `m`-flagged regex). -/
def splitNl : List Char → List (List Char)
  | [] => [[]]
  | c :: cs =>
    if c = '\n' then [] :: splitNl cs
    else
      match splitNl cs with
      | [] => [[c]]
      | x :: xs => (c :: x) :: xs

/-- Rejoin lines with newlines. -/
def joinNl : List (List Char) → List Char
  | [] => []
  | [x] => x
  | x :: xs => x ++ '\n' :: joinNl xs

/-- Apply a whole-line replacement to every line, the shape of each
`^...$`-anchored global pass. -/
def mapLines (f : List Char → List Char) (l : List Char) : List Char :=
  joinNl ((splitNl l).map f)

/-- A line-anchored marker pass (`^### `, `^## `, `^# `, `^> `): when the line
starts with the marker, wrap the rest of the line in the given tags. -/
def markerLine (marker openTag closeTag line : List Char) : List Char :=
  if marker.isPrefixOf line then openTag ++ line.drop marker.length ++ closeTag else line

/-- Match of the numbered-list regex `^(\d+)\.\s+(.*$)` at a line start: a
maximal digit run, a dot, a maximal whitespace run — the `\s` class includes
the newline, so the run may cross line breaks — then the rest of the line
(`.` excludes the newline, `$` holds after a maximal `.*`).  Returns the
digits, the rest of the line, and the remainder after the match (empty or
beginning with the terminating newline). -/
def tryNumbered (l : List Char) : Option (List Char × List Char × List Char) :=
  let ds := l.takeWhile Char.isDigit
  if ds = [] then none
  else
    match l.drop ds.length with
    | c :: r2 =>
      if c = '.' then
        let ws := r2.takeWhile Char.isWhitespace
        if ws = [] then none
        else
          let r3 := r2.drop ws.length
          let restLine := r3.takeWhile (fun x => x != '\n')
          some (ds, restLine, r3.drop restLine.length)
      else none
    | [] => none

/-- Step 7a of `formattedContent`: the numbered-list pass.  The Boolean tracks
whether the scanner stands at a line start (start of string or just after a
newline), where alone the `m`-flagged `^` anchor matches. -/
def numberedAux : Nat → Bool → List Char → List Char
  | 0, _, l => l
  | _ + 1, _, [] => []
  | fuel + 1, atStart, c :: cs =>
    if atStart then
      match tryNumbered (c :: cs) with
      | some (ds, restLine, after) =>
        "<div class=\"list-item numbered\">".data ++ ds ++ ". ".data ++ restLine ++
          "</div>".data ++ numberedAux fuel false after
      | none => c :: numberedAux fuel (c = '\n') cs
    else c :: numberedAux fuel (c = '\n') cs

/-- Match of the bullet-list regex `^[-*]\s+(.*$)` at a line start: a dash or
asterisk, a maximal whitespace run (which may cross line breaks), then the
rest of the line.  Returns the rest of the line and the remainder. -/
def tryBullet (l : List Char) : Option (List Char × List Char) :=
  match l with
  | c :: r1 =>
    if c = '-' || c = '*' then
      let ws := r1.takeWhile Char.isWhitespace
      if ws = [] then none
      else
        let r2 := r1.drop ws.length
        let restLine := r2.takeWhile (fun x => x != '\n')
        some (restLine, r2.drop restLine.length)
    else none
  | [] => none

/-- Step 7b of `formattedContent`: the bullet-list pass, scanning with the
same line-start tracking as the numbered pass. -/
def bulletAux : Nat → Bool → List Char → List Char
  | 0, _, l => l
  | _ + 1, _, [] => []
  | fuel + 1, atStart, c :: cs =>
    if atStart then
      match tryBullet (c :: cs) with
      | some (restLine, after) =>
        "<div class=\"list-item bullet\">• ".data ++ restLine ++ "</div>".data ++
          bulletAux fuel false after
      | none => c :: bulletAux fuel (c = '\n') cs
    else c :: bulletAux fuel (c = '\n') cs

/-- Step 5a of `formattedContent`: `\*\*(.*?)\*\*` — two asterisks, a lazy body
that cannot cross a newline, two closing asterisks. -/
def boldAux : Nat → List Char → List Char
  | 0, l => l
  | _ + 1, [] => []
  | fuel + 1, c :: cs =>
    if ("**".data).isPrefixOf (c :: cs) then
      match splitFirst "**".data (cs.drop 1) with
      | some (body, rest) =>
        if body.contains '\n' then c :: boldAux fuel cs
        else "<strong>".data ++ body ++ "</strong>".data ++ boldAux fuel rest
      | none => c :: boldAux fuel cs
    else c :: boldAux fuel cs

/-- Step 5b of `formattedContent`: `(?<!\*)\*([^*]+)\*(?!\*)` — an asterisk not
preceded by one, a non-empty run of non-asterisks, a closing asterisk not
followed by one.  The previous subject character is threaded for the
look-behind. -/
def italicAux : Nat → Option Char → List Char → List Char
  | 0, _, l => l
  | _ + 1, _, [] => []
  | fuel + 1, prev, c :: cs =>
    if c = '*' && prev != some '*' then
      let body := cs.takeWhile (fun x => x != '*')
      let rest := cs.drop body.length
      match rest with
      | _ :: r2 =>
        if body = [] then c :: italicAux fuel (some c) cs
        else if r2.head? = some '*' then c :: italicAux fuel (some c) cs
        else "<em>".data ++ body ++ "</em>".data ++ italicAux fuel (some '*') r2
      | [] => c :: italicAux fuel (some c) cs
    else c :: italicAux fuel (some c) cs

/-- Scheme match of the auto-link regex `https?:\/\/`; returns its length. -/
def urlScheme (l : List Char) : Option Nat :=
  if ("https://".data).isPrefixOf l then some 8
  else if ("http://".data).isPrefixOf l then some 7
  else none

/-- Step 8 of `formattedContent`: the auto-link pass
`(https?:\/\/[^\s<]+)`. -/
def urlAux : Nat → List Char → List Char
  | 0, l => l
  | _ + 1, [] => []
  | fuel + 1, c :: cs =>
    match urlScheme (c :: cs) with
    | some k =>
      let after := (c :: cs).drop k
      let tailUrl := after.takeWhile (fun x => !x.isWhitespace && x != '<')
      if tailUrl = [] then c :: urlAux fuel cs
      else
        let url := (c :: cs).take k ++ tailUrl
        "<a href=\"".data ++ url ++ "\" target=\"_blank\" rel=\"noopener noreferrer\">".data ++
          url ++ "</a>".data ++ urlAux fuel (after.drop tailUrl.length)
    | none => c :: urlAux fuel cs

/-- Step 10 of `formattedContent`: wrap in one paragraph container when no
block-level element was produced. -/
def wrapParagraph (l : List Char) : List Char :=
  if !containsSub "<h1>".data l && !containsSub "<h2>".data l && !containsSub "<h3>".data l &&
      !containsSub "<div class=\"code-block\">".data l && !containsSub "<blockquote>".data l
  then "<p>".data ++ l ++ "</p>".data
  else l

/-- The `formattedContent` computed property of `ChatMessage.vue`: the fixed
pipeline of replacement passes, in source order. -/
def formattedContent (content : String) : String :=
  let s1 := escapeHtml content.data
  let s2 := codeBlocksAux (s1.length + 1) s1
  let s3 := inlineCodeAux (s2.length + 1) s2
  let s4 := mapLines (markerLine "### ".data "<h3>".data "</h3>".data) s3
  let s5 := mapLines (markerLine "## ".data "<h2>".data "</h2>".data) s4
  let s6 := mapLines (markerLine "# ".data "<h1>".data "</h1>".data) s5
  let s7 := boldAux (s6.length + 1) s6
  let s8 := italicAux (s7.length + 1) none s7
  let s9 := mapLines (markerLine "> ".data "<blockquote>".data "</blockquote>".data) s8
  let s10 := numberedAux (s9.length + 1) true s9
  let s11 := bulletAux (s10.length + 1) true s10
  let s12 := urlAux (s11.length + 1) s11
  let s13 := replaceSubP "\n\n".data "</p><p>".data s12
  let s14 := replaceSubP "\n".data "<br>".data s13
  String.mk (wrapParagraph s14)

/-! ### The export writer (`exportChat` in `src/App.vue`)

The locale-dependent timestamp renderings (`toLocaleDateString`,
`toLocaleString`) are environment functions and enter as parameters; the ISO
instant of `new Date().toISOString()` enters as a string parameter. -/

/-- Fixed head of the exported document, through the `<h1>` title line (which
interpolates `toLocaleDateString`) and up to the message interpolation. -/
def exportHeader (localeDate : String) : String :=
  "\n<!DOCTYPE html>\n<html lang=\"en\">\n<head>\n    <meta charset=\"UTF-8\">\n    <meta name=\"viewport\" content=\"width=device-width, initial-scale=1.0\">\n    <title>Grok 4 Chat Export</title>\n    <style>\n        body \x7b font-family: -apple-system, BlinkMacSystemFont, \x27Segoe UI\x27, Roboto, sans-serif; margin: 0; padding: 20px; background: #f5f5f5; \x7d\n        .chat-export \x7b max-width: 800px; margin: 0 auto; background: white; border-radius: 12px; padding: 20px; box-shadow: 0 2px 10px rgba(0,0,0,0.1); \x7d\n        .message \x7b margin-bottom: 16px; padding: 12px; border-radius: 8px; \x7d\n        .user \x7b background: #007AFF; color: white; margin-left: 60px; \x7d\n        .assistant \x7b background: #E5E5EA; color: black; margin-right: 60px; \x7d\n        .timestamp \x7b font-size: 0.8em; opacity: 0.7; margin-top: 4px; \x7d\n        h1 \x7b text-align: center; color: #333; \x7d\n    </style>\n</head>\n<body>\n    <div class=\"chat-export\">\n        <h1>Grok 4 Chat - " ++
    localeDate ++ "</h1>\n        "

/-- Fixed tail of the exported document. -/
def exportFooter : String := "\n    </div>\n</body>\n</html>"

/-- The per-message template of `exportChat`: role as CSS class, the raw
content, and the `toLocaleString` rendering of the timestamp. -/
def exportMessageBlock (locale : Nat → String) (m : Message) : String :=
  "\n            <div class=\"message " ++ roleString m.role ++
    "\">\n                <div>" ++ m.content ++
    "</div>\n                <div class=\"timestamp\">" ++ locale m.timestamp ++
    "</div>\n            </div>\n        "

/-- The `.map(...).join("")` over the turn log. -/
def joinedBlocks (locale : Nat → String) : List Message → String
  | [] => ""
  | m :: ms => exportMessageBlock locale m ++ joinedBlocks locale ms

/-- The full `chatHtml` document assembled by `exportChat`. -/
def exportChatHtml (locale : Nat → String) (localeDate : String) (msgs : List Message) : String :=
  exportHeader localeDate ++ joinedBlocks locale msgs ++ exportFooter

/-- The download filename of `exportChat`:
`grok-chat-${new Date().toISOString().split("T")[0]}.html`.  The first element
of `split("T")` is the part of the string before its first `T`. -/
def exportFilename (isoNow : String) : String :=
  "grok-chat-" ++ String.mk (isoNow.data.takeWhile (fun x => x != 'T')) ++ ".html"

/-! ### The cost estimator (spec-modelled) -/

/-- Modelled from the spec: no cost-estimator code exists under `src/` (the
`Message` interface carries no `tokens` or `cost` field and no rate constants
appear anywhere in the repository), so the spec's Turn with its optional
`tokens` and `cost` metadata is modelled from the spec's words. -/
structure CostTurn where
  id : String
  role : Role
  content : String
  timestamp : Nat
  tokens : Option Nat
  cost : Option ℚ
deriving DecidableEq

/-- Modelled from the spec: the fixed per-token input rate.  The spec fixes no
numeric value, only `inputRate < outputRate`; the value is 3 dollars per
million tokens. -/
def inputRate : ℚ := 3 / 1000000

/-- Modelled from the spec: the fixed per-token output rate, 15 dollars per
million tokens. -/
def outputRate : ℚ := 15 / 1000000

/-- Modelled from the spec: the pure cost function
`cost(inputTokens, outputTokens) = inputTokens × inputRate + outputTokens × outputRate`. -/
def cost (inputTokens outputTokens : Nat) : ℚ :=
  inputTokens * inputRate + outputTokens * outputRate

/-- Modelled from the spec: `totalCost(log)` sums every turn's `cost`,
treating an absent cost as zero. -/
def totalCost : List CostTurn → ℚ
  | [] => 0
  | t :: ts => t.cost.getD 0 + totalCost ts

/-! ### Invariant used for the id-uniqueness analysis -/

/-- The ids of the stored log are the decimal strings of a strictly increasing
list of clock values, all below the bound `b`. -/
def IdInv (s : AppState) (b : Nat) : Prop :=
  ∃ l : List Nat, s.messages.map Message.id = l.map toString ∧
    l.Pairwise (· < ·) ∧ ∀ x ∈ l, x < b

/-! ### Helper lemmas -/

theorem isPrefixOf_append_self (p b : List Char) : p.isPrefixOf (p ++ b) = true :=
  List.isPrefixOf_iff_prefix.mpr (List.prefix_append p b)

theorem containsSub_here (p b : List Char) : containsSub p (p ++ b) = true := by
  unfold containsSub
  cases p with
  | nil =>
    cases b with
    | nil => simp [splitFirst]
    | cons c cs => simp [splitFirst, List.isPrefixOf]
  | cons x xs =>
    have h : (x :: xs).isPrefixOf (x :: (xs ++ b)) = true := by
      have h0 := isPrefixOf_append_self (x :: xs) b
      simp only [List.cons_append] at h0
      exact h0
    simp [splitFirst, h]

theorem containsSub_append_left (p a l : List Char) (h : containsSub p l = true) :
    containsSub p (a ++ l) = true := by
  induction a with
  | nil => simpa using h
  | cons c a ih =>
    unfold containsSub at ih ⊢
    by_cases hp : p.isPrefixOf (c :: (a ++ l)) = true
    · simp [splitFirst, hp]
    · obtain ⟨pr, hpr⟩ := Option.isSome_iff_exists.mp ih
      obtain ⟨pre, post⟩ := pr
      simp [splitFirst, hp, hpr]

/-! ### Claims -/

/-- C1: `send(draftText)` is a no-op — the turn log is left unchanged and no
network request is dispatched — whenever a precondition is violated: the draft
is empty after trimming, a request is already in flight, or the configured
credential is empty after trimming.  The operation silently declines (returns)
rather than raising. -/
theorem sendStart_precondition_noop (s : AppState) (now : Nat)
    (h : trimStr s.currentMessage = "" ∨ s.isLoading = true ∨ trimStr s.apiKey = "") :
    sendStart now s = (s, none) := by
  have hc : canSend s = false := by
    rcases h with h | h | h <;> simp [canSend, hasApiKey, h]
  simp [sendStart, hc]

/-- Witness for C1: sending with an empty credential configured is a no-op. -/
theorem sendStart_precondition_noop_witness :
    trimStr (AppState.mk [] "hi" false "" false).apiKey = "" ∧
    sendStart 0 (AppState.mk [] "hi" false "" false) = (AppState.mk [] "hi" false "" false, none) :=
  ⟨by decide, sendStart_precondition_noop _ 0 (Or.inr (Or.inr (by decide)))⟩

/-- C10: a `POST /api/chat` body whose `apiKey` is absent or empty is answered
with HTTP 400 and body `{error: "API key is required"}`, and no upstream call
is performed. -/
theorem handleChat_missing_key_400
    (upstream : UpstreamRequest → Except String UpstreamResponse)
    (b : ChatRequestBody) (h : b.apiKey = none ∨ b.apiKey = some "") :
    handleChat upstream b =
      ({ status := 400, body := .errorObj "API key is required" none }, none) := by
  rcases h with h | h <;> simp [handleChat, h]

/-- Witness for C10 at a concrete request body with no `apiKey`. -/
theorem handleChat_missing_key_400_witness :
    ((⟨[], none, []⟩ : ChatRequestBody).apiKey = none ∨
      (⟨[], none, []⟩ : ChatRequestBody).apiKey = some "") ∧
    handleChat (fun _ => .error "down") (⟨[], none, []⟩ : ChatRequestBody) =
      ({ status := 400, body := .errorObj "API key is required" none }, none) :=
  ⟨Or.inl rfl, handleChat_missing_key_400 _ _ (Or.inl rfl)⟩

/-- C7 (counterexample): the claim fails on the code in two ways.  First, the
passthrough options are spread after the fixed fields of the upstream body, so
a request whose options carry `model: "grok-3"` makes the forwarder send model
`grok-3`, not the fixed identifier.  Second, an upstream reply with a success
status whose body does not parse as JSON is answered 500 `{error, details}`
(the `response.json()` throw lands in the catch), not relayed verbatim. -/
theorem handleChat_passthrough_counterexample :
    ((handleChat (fun _ => .ok ⟨true, 200, "OK", "ok-body", .ok "ok-body"⟩)
        (⟨[⟨"user", "hi"⟩], some "key1", [("model", "grok-3")]⟩ : ChatRequestBody)).2.map
      UpstreamRequest.model) = some "grok-3" ∧
    (handleChat (fun _ => .ok ⟨true, 200, "OK", "<html>oops</html>",
        .error "Unexpected token"⟩)
      (⟨[⟨"user", "hi"⟩], some "key1", []⟩ : ChatRequestBody)).1 =
      { status := 500, body := .errorObj "Internal server error" (some "Unexpected token") } := by
  constructor <;> rfl

/-- C7 (amended): for every `POST /api/chat` body carrying a (truthy)
`apiKey`, the forwarder issues exactly one upstream request with
`Authorization: Bearer <apiKey>`, the `messages` passed through, and the fixed
model `grok-4` unless a passthrough `model` option overrides it (the options
are spread after the fixed fields); on an upstream success whose body parses
as JSON the parsed body is relayed verbatim, a success body that fails to
parse yields 500 `{error, details}`, and a non-success upstream status is
answered with `{error, details}` under the upstream status code. -/
theorem handleChat_forwards_with_bearer
    (upstream : UpstreamRequest → Except String UpstreamResponse)
    (b : ChatRequestBody) (k : String) (hk : b.apiKey = some k) (hne : k ≠ "") :
    (handleChat upstream b).2 =
      some { authorization := "Bearer " ++ k
             messages := b.messages
             model := (b.options.lookup "model").getD "grok-4"
             stream := (b.options.lookup "stream").getD "false"
             temperature := (b.options.lookup "temperature").getD "0.7"
             extraOptions := b.options.filter
               (fun p => p.1 != "model" && p.1 != "stream" && p.1 != "temperature") } ∧
    (b.options.lookup "model" = none →
      (handleChat upstream b).2.map UpstreamRequest.model = some "grok-4") ∧
    (∀ r : UpstreamResponse,
      upstream { authorization := "Bearer " ++ k
                 messages := b.messages
                 model := (b.options.lookup "model").getD "grok-4"
                 stream := (b.options.lookup "stream").getD "false"
                 temperature := (b.options.lookup "temperature").getD "0.7"
                 extraOptions := b.options.filter
                   (fun p => p.1 != "model" && p.1 != "stream" && p.1 != "temperature") } =
        .ok r →
      (r.ok = true → ∀ data : String, r.json = .ok data →
        (handleChat upstream b).1 = { status := 200, body := .upstream data }) ∧
      (r.ok = true → ∀ e : String, r.json = .error e →
        (handleChat upstream b).1 =
          { status := 500, body := .errorObj "Internal server error" (some e) }) ∧
      (r.ok = false → (handleChat upstream b).1 =
        { status := r.status
          body := .errorObj ("xAI API Error: " ++ toString r.status ++ " " ++ r.statusText)
            (some r.body) })) := by
  have h2 : (handleChat upstream b).2 =
      some { authorization := "Bearer " ++ k
             messages := b.messages
             model := (b.options.lookup "model").getD "grok-4"
             stream := (b.options.lookup "stream").getD "false"
             temperature := (b.options.lookup "temperature").getD "0.7"
             extraOptions := b.options.filter
               (fun p => p.1 != "model" && p.1 != "stream" && p.1 != "temperature") } := by
    cases hr : upstream { authorization := "Bearer " ++ k
                          messages := b.messages
                          model := (b.options.lookup "model").getD "grok-4"
                          stream := (b.options.lookup "stream").getD "false"
                          temperature := (b.options.lookup "temperature").getD "0.7"
                          extraOptions := b.options.filter
                            (fun p =>
                              p.1 != "model" && p.1 != "stream" && p.1 != "temperature") } with
    | error e => simp [handleChat, hk, hne, hr]
    | ok r =>
      by_cases hok : r.ok = true
      · cases hj : r.json with
        | ok data => simp [handleChat, hk, hne, hr, hok, hj]
        | error e => simp [handleChat, hk, hne, hr, hok, hj]
      · simp only [Bool.not_eq_true] at hok
        simp [handleChat, hk, hne, hr, hok]
  refine ⟨h2, ?_, ?_⟩
  · intro hm
    rw [h2]
    simp [hm]
  · intro r hr
    refine ⟨?_, ?_, ?_⟩
    · intro hok data hj
      simp [handleChat, hk, hne, hr, hok, hj]
    · intro hok e hj
      simp [handleChat, hk, hne, hr, hok, hj]
    · intro hok
      simp [handleChat, hk, hne, hr, hok]

/-- Witness for C7 (amended) at a concrete body with no passthrough options
and a concrete successful, JSON-parsing upstream. -/
theorem handleChat_forwards_with_bearer_witness :
    (⟨[⟨"user", "hi"⟩], some "key1", []⟩ : ChatRequestBody).apiKey = some "key1" ∧
    "key1" ≠ "" ∧
    ((handleChat (fun _ => .ok ⟨true, 200, "OK", "upstream-json", .ok "upstream-json"⟩)
        (⟨[⟨"user", "hi"⟩], some "key1", []⟩ : ChatRequestBody)).2 =
      some { authorization := "Bearer " ++ "key1"
             messages := [⟨"user", "hi"⟩]
             model := "grok-4"
             stream := "false"
             temperature := "0.7"
             extraOptions := [] } ∧
    (([] : List (String × String)).lookup "model" = none →
      (handleChat (fun _ => .ok ⟨true, 200, "OK", "upstream-json", .ok "upstream-json"⟩)
        (⟨[⟨"user", "hi"⟩], some "key1", []⟩ : ChatRequestBody)).2.map UpstreamRequest.model =
        some "grok-4") ∧
    (∀ r : UpstreamResponse,
      (fun (_ : UpstreamRequest) =>
          (.ok ⟨true, 200, "OK", "upstream-json", .ok "upstream-json"⟩ :
            Except String UpstreamResponse))
        { authorization := "Bearer " ++ "key1"
          messages := [⟨"user", "hi"⟩]
          model := "grok-4"
          stream := "false"
          temperature := "0.7"
          extraOptions := [] } = .ok r →
      (r.ok = true → ∀ data : String, r.json = .ok data →
        (handleChat (fun _ => .ok ⟨true, 200, "OK", "upstream-json", .ok "upstream-json"⟩)
          (⟨[⟨"user", "hi"⟩], some "key1", []⟩ : ChatRequestBody)).1 =
          { status := 200, body := .upstream data }) ∧
      (r.ok = true → ∀ e : String, r.json = .error e →
        (handleChat (fun _ => .ok ⟨true, 200, "OK", "upstream-json", .ok "upstream-json"⟩)
          (⟨[⟨"user", "hi"⟩], some "key1", []⟩ : ChatRequestBody)).1 =
          { status := 500, body := .errorObj "Internal server error" (some e) }) ∧
      (r.ok = false →
        (handleChat (fun _ => .ok ⟨true, 200, "OK", "upstream-json", .ok "upstream-json"⟩)
          (⟨[⟨"user", "hi"⟩], some "key1", []⟩ : ChatRequestBody)).1 =
          { status := r.status
            body := .errorObj ("xAI API Error: " ++ toString r.status ++ " " ++ r.statusText)
              (some r.body) }))) :=
  ⟨rfl, by decide,
    handleChat_forwards_with_bearer
      (fun _ => .ok ⟨true, 200, "OK", "upstream-json", .ok "upstream-json"⟩)
      (⟨[⟨"user", "hi"⟩], some "key1", []⟩ : ChatRequestBody) "key1" rfl (by decide)⟩

/-- C3: `send` first appends the new user turn (optimistic append, before any
network completion) with the trimmed draft and the current time, then the
dispatched request's message list is one optional system entry (present exactly
when the system prompt is non-blank; in this code base the prompt is the fixed,
non-blank `systemPromptText`) followed by every stored turn's `{role, content}`
pair in order — the full conversation, including the just-appended user turn,
with no truncation, windowing, or summarization. -/
theorem sendStart_optimistic_append_full_replay (s : AppState) (now : Nat)
    (h : canSend s = true) :
    (sendStart now s).1.messages =
      s.messages ++ [(⟨toString now, .user, trimStr s.currentMessage, now⟩ : Message)] ∧
    ∃ r, (sendStart now s).2 = some r ∧
      payloadMessages r =
        ((if trimStr systemPromptText = "" then []
          else [(⟨"system", systemPromptText⟩ : OutboundEntry)]) ++
          (s.messages ++ [(⟨toString now, .user, trimStr s.currentMessage, now⟩ : Message)]).map
            (fun m => (⟨roleString m.role, m.content⟩ : OutboundEntry))) := by
  constructor
  · simp [sendStart, h]
  · refine ⟨buildRequest s
      (s.messages ++ [(⟨toString now, .user, trimStr s.currentMessage, now⟩ : Message)]), ?_, ?_⟩
    · simp [sendStart, h]
    · rw [if_neg (by decide)]
      cases hu : s.useProxy <;>
        simp [buildRequest, hu, outboundMessages, payloadMessages]

/-- Witness for C3 at a concrete state with a padded draft. -/
theorem sendStart_optimistic_append_full_replay_witness :
    canSend (AppState.mk [] " hi " false "k" false) = true ∧
    ((sendStart 3 (AppState.mk [] " hi " false "k" false)).1.messages =
      [] ++ [(⟨toString 3, .user, trimStr " hi ", 3⟩ : Message)] ∧
    ∃ r, (sendStart 3 (AppState.mk [] " hi " false "k" false)).2 = some r ∧
      payloadMessages r =
        ((if trimStr systemPromptText = "" then []
          else [(⟨"system", systemPromptText⟩ : OutboundEntry)]) ++
          (([] : List Message) ++ [(⟨toString 3, .user, trimStr " hi ", 3⟩ : Message)]).map
            (fun m => (⟨roleString m.role, m.content⟩ : OutboundEntry)))) :=
  ⟨by decide, sendStart_optimistic_append_full_replay _ 3 (by decide)⟩

/-- C4 (counterexample): the turn log does not survive a restart.  A reachable
state with a non-empty log reloads with an empty log, because `messages` is a
plain ref with no storage backing (only `grok-api-key` and `grok-use-proxy`
are persisted), so the claim that the conversation turn log is persisted and
survives restarts is false of this code. -/
theorem turnLog_not_persisted_counterexample :
    (run (initState "key" false) [.setDraft "hi", .send 0]).messages ≠ [] ∧
    (restart (run (initState "key" false) [.setDraft "hi", .send 0])).messages = [] := by
  constructor
  · decide
  · rfl

/-- C4 (amended): only the credential and the forwarder preference are
persisted and survive a restart; the turn log is held in memory only, and every
restart yields an empty log (there is no turn-log serializer in this code). -/
theorem restart_resets_log_keeps_settings (a : String) (u : Bool) (tr : List Event) :
    (restart (run (initState a u) tr)).messages = [] ∧
    (restart (run (initState a u) tr)).apiKey = (run (initState a u) tr).apiKey ∧
    (restart (run (initState a u) tr)).useProxy = (run (initState a u) tr).useProxy :=
  ⟨rfl, rfl, rfl⟩

/-- C5: rendering the content `**bold** and *italic* and `code`` yields a
single paragraph container holding a bold span, an italic span, and an
inline-code span in that order, with no literal asterisk or backquote left in
the output. -/
theorem formattedContent_bold_italic_code :
    formattedContent "**bold** and *italic* and `code`" =
      "<p><strong>bold</strong> and <em>italic</em> and <code class=\"inline-code\">code</code></p>" ∧
    occursInOrder ["<strong>bold</strong>".data, "<em>italic</em>".data,
        "<code class=\"inline-code\">code</code>".data]
      (formattedContent "**bold** and *italic* and `code`").data = true ∧
    (formattedContent "**bold** and *italic* and `code`").data.contains '*' = false ∧
    (formattedContent "**bold** and *italic* and `code`").data.contains backquoteChar = false :=
  ⟨rfl, rfl, rfl, rfl⟩

theorem totalCost_eq_sum (log : List CostTurn) :
    totalCost log = (log.map (fun t => t.cost.getD 0)).sum := by
  induction log with
  | nil => simp [totalCost]
  | cons t ts ih => simp [totalCost, ih]

theorem totalCost_append (l1 l2 : List CostTurn) :
    totalCost (l1 ++ l2) = totalCost l1 + totalCost l2 := by
  induction l1 with
  | nil => simp [totalCost]
  | cons t ts ih =>
    show t.cost.getD 0 + totalCost (ts ++ l2) = t.cost.getD 0 + totalCost ts + totalCost l2
    rw [ih, add_assoc]

/-- C9: for all non-empty turn logs, `totalCost` is the sum of each turn's
`cost` (absent treated as zero); appending a turn whose cost is `c` increases
`totalCost` by exactly `c`, in particular by
`inputTokens × inputRate + outputTokens × outputRate` for a turn costed by the
pure cost function; and the fixed rates satisfy `inputRate < outputRate`. -/
theorem totalCost_sum_and_append :
    (∀ log : List CostTurn, log ≠ [] →
      totalCost log = (log.map (fun t => t.cost.getD 0)).sum) ∧
    (∀ (log : List CostTurn) (t : CostTurn) (c : ℚ), t.cost = some c →
      totalCost (log ++ [t]) = totalCost log + c) ∧
    (∀ (log : List CostTurn) (t : CostTurn) (i o : Nat), t.cost = some (cost i o) →
      totalCost (log ++ [t]) = totalCost log + (i * inputRate + o * outputRate)) ∧
    inputRate < outputRate := by
  refine ⟨fun log _ => totalCost_eq_sum log, ?_, ?_, ?_⟩
  · intro log t c hc
    rw [totalCost_append]
    simp [totalCost, hc]
  · intro log t i o hc
    rw [totalCost_append]
    simp [totalCost, hc, cost]
  · norm_num [inputRate, outputRate]

/-- Witness for C9 at concrete one- and two-turn logs. -/
theorem totalCost_sum_and_append_witness :
    ([⟨"1", .user, "hi", 0, none, some 2⟩] : List CostTurn) ≠ [] ∧
    totalCost [⟨"1", .user, "hi", 0, none, some 2⟩] =
      (([⟨"1", .user, "hi", 0, none, some 2⟩] : List CostTurn).map
        (fun t => t.cost.getD 0)).sum ∧
    (⟨"2", .assistant, "ok", 1, some 30, some 2⟩ : CostTurn).cost = some 2 ∧
    totalCost ([⟨"1", .user, "hi", 0, none, some 2⟩] ++
        [⟨"2", .assistant, "ok", 1, some 30, some 2⟩]) =
      totalCost [⟨"1", .user, "hi", 0, none, some 2⟩] + 2 ∧
    (⟨"3", .assistant, "ok", 2, some 30, some (cost 10 20)⟩ : CostTurn).cost =
      some (cost 10 20) ∧
    totalCost ([] ++ [⟨"3", .assistant, "ok", 2, some 30, some (cost 10 20)⟩]) =
      totalCost [] + (10 * inputRate + 20 * outputRate) :=
  ⟨by decide, totalCost_sum_and_append.1 _ (by decide), rfl,
    totalCost_sum_and_append.2.1 _ _ 2 rfl, rfl,
    totalCost_sum_and_append.2.2.1 [] _ 10 20 rfl⟩

theorem containsSub_self (p : List Char) : containsSub p p = true := by
  have h := containsSub_here p []
  simpa using h

/-- C2: whenever a dispatched send completes — success or failure — exactly one
new assistant turn is appended and the in-flight flag is cleared; on a
non-success HTTP status the appended turn's content embeds the status, the
status text, and the server-supplied error detail, and when the direct
(non-forwarder) path was used it additionally contains the hint to enable the
forwarder. -/
theorem sendComplete_appends_one_turn :
    (∀ (s : AppState) (now : Nat) (o : FetchOutcome),
      (sendComplete now o s).messages = s.messages ++ [completionMessage now o s.useProxy] ∧
      (sendComplete now o s).isLoading = false ∧
      (completionMessage now o s.useProxy).role = .assistant) ∧
    (∀ (now st : Nat) (stx e : String) (d : Option String) (u : Bool), e ≠ "" →
      containsStr (toString st)
        ((completionMessage now (.httpError st stx (.parsed (some e) d)) u).content) = true ∧
      containsStr stx
        ((completionMessage now (.httpError st stx (.parsed (some e) d)) u).content) = true ∧
      containsStr e
        ((completionMessage now (.httpError st stx (.parsed (some e) d)) u).content) = true ∧
      (u = false →
        containsStr corsHint
          ((completionMessage now (.httpError st stx (.parsed (some e) d)) u).content) = true)) := by
  constructor
  · intro s now o
    refine ⟨rfl, rfl, ?_⟩
    cases o <;> rfl
  · intro now st stx e d u he
    have hd : errDetail (.parsed (some e) d) = e := by simp [errDetail, jsOr, he]
    refine ⟨?_, ?_, ?_, ?_⟩
    · unfold containsStr
      simp only [completionMessage, errorContent, hd, String.data_append, List.append_assoc]
      apply containsSub_append_left
      apply containsSub_append_left
      exact containsSub_here _ _
    · unfold containsStr
      simp only [completionMessage, errorContent, hd, String.data_append, List.append_assoc]
      apply containsSub_append_left
      apply containsSub_append_left
      apply containsSub_append_left
      apply containsSub_append_left
      exact containsSub_here _ _
    · unfold containsStr
      simp only [completionMessage, errorContent, hd, String.data_append, List.append_assoc]
      apply containsSub_append_left
      apply containsSub_append_left
      apply containsSub_append_left
      apply containsSub_append_left
      apply containsSub_append_left
      apply containsSub_append_left
      exact containsSub_here _ _
    · intro hu
      unfold containsStr
      simp only [completionMessage, errorContent, hd, hu, if_false,
        String.data_append, List.append_assoc]
      apply containsSub_append_left
      apply containsSub_append_left
      apply containsSub_append_left
      apply containsSub_append_left
      apply containsSub_append_left
      apply containsSub_append_left
      apply containsSub_append_left
      exact containsSub_self _

/-- Witness for C2: a response with HTTP status 401 and parsed body
`{error: "bad key"}` yields exactly one appended assistant turn whose content
contains `401` (note `toString 401 = "401"`) and `bad key`; the proxy path was
used, so no hint is required. -/
theorem sendComplete_appends_one_turn_witness :
    (toString 401 : String) = "401" ∧
    "bad key" ≠ "" ∧
    ((sendComplete 10 (.httpError 401 "Unauthorized" (.parsed (some "bad key") none))
        (AppState.mk [] "" true "k" true)).messages =
      (AppState.mk [] "" true "k" true).messages ++
        [completionMessage 10 (.httpError 401 "Unauthorized" (.parsed (some "bad key") none))
          (AppState.mk [] "" true "k" true).useProxy] ∧
    (sendComplete 10 (.httpError 401 "Unauthorized" (.parsed (some "bad key") none))
        (AppState.mk [] "" true "k" true)).isLoading = false ∧
    (completionMessage 10 (.httpError 401 "Unauthorized" (.parsed (some "bad key") none))
        (AppState.mk [] "" true "k" true).useProxy).role = .assistant) ∧
    containsStr (toString 401)
      ((completionMessage 10 (.httpError 401 "Unauthorized" (.parsed (some "bad key") none))
        true).content) = true ∧
    containsStr "Unauthorized"
      ((completionMessage 10 (.httpError 401 "Unauthorized" (.parsed (some "bad key") none))
        true).content) = true ∧
    containsStr "bad key"
      ((completionMessage 10 (.httpError 401 "Unauthorized" (.parsed (some "bad key") none))
        true).content) = true :=
  ⟨rfl, by decide,
    sendComplete_appends_one_turn.1 (AppState.mk [] "" true "k" true) 10
      (.httpError 401 "Unauthorized" (.parsed (some "bad key") none)),
    (sendComplete_appends_one_turn.2 10 401 "Unauthorized" "bad key" none true (by decide)).1,
    (sendComplete_appends_one_turn.2 10 401 "Unauthorized" "bad key" none true (by decide)).2.1,
    (sendComplete_appends_one_turn.2 10 401 "Unauthorized" "bad key" none true (by decide)).2.2.1⟩

/-- C6 (counterexample): the export writer does not escape turn content.  For
a turn whose content is `<b>hi</b>`, the per-turn rendering emitted verbatim
into the exported document contains the raw markup `<div><b>hi</b></div>` and
no escaped form `&lt;` anywhere, refuting the claim that every turn is
rendered with escaped content. -/
theorem exportChat_unescaped_counterexample :
    containsStr "<div><b>hi</b></div>"
      (exportMessageBlock (fun _ => "timestamp")
        ⟨"1", .assistant, "<b>hi</b>", 0⟩) = true ∧
    containsStr "&lt;"
      (exportMessageBlock (fun _ => "timestamp")
        ⟨"1", .assistant, "<b>hi</b>", 0⟩) = false := by
  constructor <;> rfl

theorem joinedBlocks_decomp (locale : Nat → String) (msgs : List Message) (m : Message)
    (hm : m ∈ msgs) :
    ∃ x y : String, joinedBlocks locale msgs = x ++ exportMessageBlock locale m ++ y := by
  induction msgs with
  | nil => cases hm
  | cons m0 ms ih =>
    rcases List.mem_cons.mp hm with rfl | hm2
    · refine ⟨"", joinedBlocks locale ms, ?_⟩
      apply String.ext
      simp [joinedBlocks, String.data_append]
    · obtain ⟨x, y, hxy⟩ := ih hm2
      refine ⟨exportMessageBlock locale m0 ++ x, y, ?_⟩
      apply String.ext
      simp [joinedBlocks, hxy, String.data_append]

/-- C6 (amended): the export operation renders every turn of the log into the
static offline document with its role, its raw (unescaped) content, and its
localized timestamp, and names the downloaded file `grok-chat-<ISO-date>.html`
(there is no title feature, so this is the only filename). -/
theorem exportChat_renders_turns_and_filename (locale : Nat → String) (d : String)
    (msgs : List Message) (m : Message) (hm : m ∈ msgs) :
    containsStr (exportMessageBlock locale m) (exportChatHtml locale d msgs) = true ∧
    containsStr (roleString m.role) (exportMessageBlock locale m) = true ∧
    containsStr m.content (exportMessageBlock locale m) = true ∧
    containsStr (locale m.timestamp) (exportMessageBlock locale m) = true ∧
    exportFilename "2026-01-02T03:04:05.000Z" = "grok-chat-2026-01-02.html" := by
  obtain ⟨x, y, hxy⟩ := joinedBlocks_decomp locale msgs m hm
  refine ⟨?_, ?_, ?_, ?_, rfl⟩
  · unfold containsStr exportChatHtml exportHeader
    rw [hxy]
    simp only [String.data_append, List.append_assoc]
    apply containsSub_append_left
    apply containsSub_append_left
    apply containsSub_append_left
    apply containsSub_append_left
    exact containsSub_here _ _
  · unfold containsStr exportMessageBlock
    simp only [String.data_append, List.append_assoc]
    apply containsSub_append_left
    exact containsSub_here _ _
  · unfold containsStr exportMessageBlock
    simp only [String.data_append, List.append_assoc]
    apply containsSub_append_left
    apply containsSub_append_left
    apply containsSub_append_left
    exact containsSub_here _ _
  · unfold containsStr exportMessageBlock
    simp only [String.data_append, List.append_assoc]
    apply containsSub_append_left
    apply containsSub_append_left
    apply containsSub_append_left
    apply containsSub_append_left
    apply containsSub_append_left
    exact containsSub_here _ _

/-- Witness for C6 (amended) at a concrete one-turn log. -/
theorem exportChat_renders_turns_and_filename_witness :
    (⟨"1", .assistant, "reply", 5⟩ : Message) ∈ [(⟨"1", .assistant, "reply", 5⟩ : Message)] ∧
    (containsStr
        (exportMessageBlock (fun _ => "5 oclock") (⟨"1", .assistant, "reply", 5⟩ : Message))
        (exportChatHtml (fun _ => "5 oclock") "jan 2"
          [(⟨"1", .assistant, "reply", 5⟩ : Message)]) = true ∧
      containsStr (roleString (⟨"1", .assistant, "reply", 5⟩ : Message).role)
        (exportMessageBlock (fun _ => "5 oclock")
          (⟨"1", .assistant, "reply", 5⟩ : Message)) = true ∧
      containsStr (⟨"1", .assistant, "reply", 5⟩ : Message).content
        (exportMessageBlock (fun _ => "5 oclock")
          (⟨"1", .assistant, "reply", 5⟩ : Message)) = true ∧
      containsStr ((fun (_ : Nat) => "5 oclock") (⟨"1", .assistant, "reply", 5⟩ : Message).timestamp)
        (exportMessageBlock (fun _ => "5 oclock")
          (⟨"1", .assistant, "reply", 5⟩ : Message)) = true ∧
      exportFilename "2026-01-02T03:04:05.000Z" = "grok-chat-2026-01-02.html") :=
  ⟨by decide,
    exportChat_renders_turns_and_filename (fun _ => "5 oclock") "jan 2"
      [(⟨"1", .assistant, "reply", 5⟩ : Message)] (⟨"1", .assistant, "reply", 5⟩ : Message)
      (by decide)⟩

/-! ### Injectivity of the decimal id representation -/

theorem toDigitsCore_shift : ∀ (fuel n : Nat) (ds : List Char), n < fuel →
    Nat.toDigitsCore 10 fuel n ds = Nat.toDigitsCore 10 (n + 1) n [] ++ ds := by
  intro fuel
  induction fuel using Nat.strong_induction_on with
  | _ fuel ih =>
    intro n ds h
    cases fuel with
    | zero => omega
    | succ f =>
      have hstep : ∀ ds0 : List Char, Nat.toDigitsCore 10 (f + 1) n ds0 =
          if n / 10 = 0 then Nat.digitChar (n % 10) :: ds0
          else Nat.toDigitsCore 10 f (n / 10) (Nat.digitChar (n % 10) :: ds0) :=
        fun _ => rfl
      have hstep2 : Nat.toDigitsCore 10 (n + 1) n [] =
          if n / 10 = 0 then [Nat.digitChar (n % 10)]
          else Nat.toDigitsCore 10 n (n / 10) [Nat.digitChar (n % 10)] := rfl
      by_cases hdiv : n / 10 = 0
      · rw [hstep, if_pos hdiv, hstep2, if_pos hdiv]
        rfl
      · have hpos : 0 < n := by omega
        have hdivlt : n / 10 < n := Nat.div_lt_self hpos (by norm_num)
        rw [hstep, if_neg hdiv, hstep2, if_neg hdiv]
        rw [ih f (Nat.lt_succ_self f) (n / 10) (Nat.digitChar (n % 10) :: ds) (by omega)]
        rw [ih n h (n / 10) [Nat.digitChar (n % 10)] hdivlt]
        simp

/-- Value of a little-list of decimal digit characters. -/
def digitListVal (l : List Char) : Nat :=
  l.foldl (fun a c => 10 * a + (c.toNat - 48)) 0

theorem digitVal_digitChar (m : Nat) (h : m < 10) : (Nat.digitChar m).toNat - 48 = m := by
  interval_cases m <;> rfl

theorem digitListVal_toDigits : ∀ n : Nat, digitListVal (Nat.toDigits 10 n) = n := by
  intro n
  induction n using Nat.strong_induction_on with
  | _ n ih =>
    by_cases hdiv : n / 10 = 0
    · have hn : n < 10 := by omega
      have hd : Nat.toDigits 10 n = [Nat.digitChar (n % 10)] := by
        show Nat.toDigitsCore 10 (n + 1) n [] = _
        rw [show Nat.toDigitsCore 10 (n + 1) n [] =
          if n / 10 = 0 then [Nat.digitChar (n % 10)]
          else Nat.toDigitsCore 10 n (n / 10) [Nat.digitChar (n % 10)] from rfl, if_pos hdiv]
      rw [hd]
      show 10 * 0 + ((Nat.digitChar (n % 10)).toNat - 48) = n
      rw [digitVal_digitChar (n % 10) (by omega)]
      omega
    · have hpos : 0 < n := by omega
      have hdivlt : n / 10 < n := Nat.div_lt_self hpos (by norm_num)
      have hunf : Nat.toDigits 10 n =
          Nat.toDigits 10 (n / 10) ++ [Nat.digitChar (n % 10)] := by
        show Nat.toDigitsCore 10 (n + 1) n [] = _
        rw [show Nat.toDigitsCore 10 (n + 1) n [] =
          if n / 10 = 0 then [Nat.digitChar (n % 10)]
          else Nat.toDigitsCore 10 n (n / 10) [Nat.digitChar (n % 10)] from rfl, if_neg hdiv]
        rw [toDigitsCore_shift n (n / 10) [Nat.digitChar (n % 10)] hdivlt]
        rfl
      rw [hunf]
      unfold digitListVal
      rw [List.foldl_append]
      have hrec := ih (n / 10) hdivlt
      unfold digitListVal at hrec
      rw [hrec]
      show 10 * (n / 10) + ((Nat.digitChar (n % 10)).toNat - 48) = n
      rw [digitVal_digitChar (n % 10) (by omega)]
      omega

theorem natToString_injective : Function.Injective (toString : Nat → String) := by
  intro m n h
  have hdig : Nat.toDigits 10 m = Nat.toDigits 10 n := congrArg String.data h
  have hval := congrArg digitListVal hdig
  rwa [digitListVal_toDigits, digitListVal_toDigits] at hval

/-! ### The id invariant along event traces -/

theorem idInv_mono {s : AppState} {b b' : Nat} (h : IdInv s b) (hb : b ≤ b') : IdInv s b' := by
  obtain ⟨l, h1, h2, h3⟩ := h
  exact ⟨l, h1, h2, fun x hx => lt_of_lt_of_le (h3 x hx) hb⟩

theorem run_idInv : ∀ (tr : List Event) (s : AppState) (b : Nat),
    IdInv s b →
    (timesOf tr).Chain' (fun x y => x + 2 ≤ y) →
    (∀ t, (timesOf tr).head? = some t → b ≤ t) →
    ∃ b', IdInv (run s tr) b' := by
  intro tr
  induction tr with
  | nil => exact fun s b h _ _ => ⟨b, h⟩
  | cons e es ih =>
    intro s b h hch hhd
    show ∃ b', IdInv (run (step s e) es) b'
    cases e with
    | setDraft txt =>
      apply ih (step s (.setDraft txt)) b ?_ hch hhd
      obtain ⟨l, h1, h2, h3⟩ := h
      exact ⟨l, h1, h2, h3⟩
    | clear =>
      apply ih (step s .clear) b ?_ hch hhd
      exact ⟨[], by simp [step, clearChat], List.Pairwise.nil, by simp⟩
    | send t =>
      have hbt : b ≤ t := hhd t rfl
      have hpair := List.chain'_cons'.mp hch
      apply ih (step s (.send t)) (t + 2) ?_ hpair.2 (fun t' ht' => hpair.1 t' ht')
      obtain ⟨l, h1, h2, h3⟩ := h
      by_cases hc : canSend s = true
      · refine ⟨l ++ [t], ?_, ?_, ?_⟩
        · show ((sendStart t s).1).messages.map Message.id = _
          simp [sendStart, hc, h1]
        · rw [List.pairwise_append]
          refine ⟨h2, List.pairwise_singleton _ _, fun x hx y hy => ?_⟩
          simp only [List.mem_singleton] at hy
          subst hy
          exact lt_of_lt_of_le (h3 x hx) hbt
        · intro x hx
          rcases List.mem_append.mp hx with hx | hx
          · exact lt_of_lt_of_le (h3 x hx) (by omega)
          · simp only [List.mem_singleton] at hx
            omega
      · have hs : step s (.send t) = s := by simp [step, sendStart, hc]
        rw [hs]
        exact idInv_mono ⟨l, h1, h2, h3⟩ (by omega)
    | complete t o =>
      have hbt : b ≤ t := hhd t rfl
      have hpair := List.chain'_cons'.mp hch
      apply ih (step s (.complete t o)) (t + 2) ?_ hpair.2 (fun t' ht' => hpair.1 t' ht')
      obtain ⟨l, h1, h2, h3⟩ := h
      by_cases hl : s.isLoading = true
      · refine ⟨l ++ [t + 1], ?_, ?_, ?_⟩
        · show (step s (.complete t o)).messages.map Message.id = _
          cases o <;> simp [step, hl, sendComplete, completionMessage, h1]
        · rw [List.pairwise_append]
          refine ⟨h2, List.pairwise_singleton _ _, fun x hx y hy => ?_⟩
          simp only [List.mem_singleton] at hy
          subst hy
          exact lt_of_lt_of_le (h3 x hx) (by omega)
        · intro x hx
          rcases List.mem_append.mp hx with hx | hx
          · exact lt_of_lt_of_le (h3 x hx) (by omega)
          · simp only [List.mem_singleton] at hx
            omega
      · have hs : step s (.complete t o) = s := by
          simp only [Bool.not_eq_true] at hl
          simp [step, hl]
        rw [hs]
        exact idInv_mono ⟨l, h1, h2, h3⟩ (by omega)

/-- C8 (counterexample): turn ids are not always unique in reachable logs.
With the non-decreasing clock readings 5, 5, 6 — one millisecond apart, as the
real `Date.now()` can deliver — a send at 5, its completion at 5 (assistant id
`(5+1).toString() = "6"`), and a second send at 6 (user id `"6"`) produce the
id sequence `["5", "6", "6"]`, which has a duplicate. -/
theorem turnIds_collision_counterexample :
    ¬ ((run (initState "k" false) [.setDraft "hi", .send 5,
        .complete 5 (.success "ok"), .setDraft "again", .send 6]).messages.map
        Message.id).Nodup := by
  decide

/-- C8 (amended): turn ids are unique in every reachable log provided the
clock readings observed by consecutive turn-creating operations are at least
2 ms apart (the id of a user turn is the send's clock value, that of an
assistant turn is the completion's clock value plus one); and unconditionally,
every operation either leaves the log unchanged, appends exactly one turn at
the end, or clears it — insertion order is never reordered. -/
theorem turnIds_unique_of_spaced_clock (a : String) (u : Bool) (tr : List Event)
    (h : (timesOf tr).Chain' (fun x y => x + 2 ≤ y)) :
    ((run (initState a u) tr).messages.map Message.id).Nodup ∧
    (∀ (s : AppState) (e : Event),
      (step s e).messages = s.messages ∨
      (∃ m, (step s e).messages = s.messages ++ [m]) ∨
      (step s e).messages = []) := by
  constructor
  · obtain ⟨b', l, h1, h2, h3⟩ :=
      run_idInv tr (initState a u) 0 ⟨[], rfl, List.Pairwise.nil, by simp⟩ h
        (fun t _ => Nat.zero_le t)
    rw [h1]
    exact List.Nodup.map natToString_injective (h2.imp fun hxy => ne_of_lt hxy)
  · intro s e
    cases e with
    | setDraft txt => exact Or.inl rfl
    | clear => exact Or.inr (Or.inr rfl)
    | send t =>
      by_cases hc : canSend s = true
      · exact Or.inr (Or.inl ⟨⟨toString t, .user, trimStr s.currentMessage, t⟩,
          by simp [step, sendStart, hc]⟩)
      · exact Or.inl (by simp [step, sendStart, hc])
    | complete t o =>
      by_cases hl : s.isLoading = true
      · exact Or.inr (Or.inl ⟨completionMessage t o s.useProxy,
          by simp [step, hl, sendComplete]⟩)
      · refine Or.inl ?_
        simp only [Bool.not_eq_true] at hl
        simp [step, hl]

/-- Witness for C8 (amended) on a concrete trace whose clock readings are
spaced 2 ms apart: ids come out pairwise distinct. -/
theorem turnIds_unique_of_spaced_clock_witness :
    (timesOf [.setDraft "hi", .send 2, .complete 4 (.success "ok"), .setDraft "x", .send 6]).Chain'
      (fun x y => x + 2 ≤ y) ∧
    (((run (initState "k" false) [.setDraft "hi", .send 2,
        .complete 4 (.success "ok"), .setDraft "x", .send 6]).messages.map
        Message.id).Nodup ∧
    (∀ (s : AppState) (e : Event),
      (step s e).messages = s.messages ∨
      (∃ m, (step s e).messages = s.messages ++ [m]) ∨
      (step s e).messages = [])) :=
  ⟨by
    show List.Chain' (fun x y => x + 2 ≤ y) [2, 4, 6]
    exact List.Chain'.cons (by omega) (List.Chain'.cons (by omega) (List.chain'_singleton 6)),
    turnIds_unique_of_spaced_clock "k" false
      [.setDraft "hi", .send 2, .complete 4 (.success "ok"), .setDraft "x", .send 6]
      (by
        show List.Chain' (fun x y => x + 2 ≤ y) [2, 4, 6]
        exact List.Chain'.cons (by omega)
          (List.Chain'.cons (by omega) (List.chain'_singleton 6)))⟩
